import Mathlib

/-!
Verification development for the `golang-misp` client library (package `misp`).

The Go source is shallowly embedded: pure functions become Lean functions,
the HTTP round trip becomes a function parameter (`transport`) together with
an explicit trace of the requests performed, `panic` becomes the `error`
branch of `Except`/`Option` results, and Go channels produced by `Iter`
become the list of values sent on them, in emission order.

JSON bodies are modelled as real strings: a JSON value AST (`Json`), a
serializer (`Json.render`, following `encoding/json.Marshal` including its
HTML escaping) and a syntax checker / parser (`parseJson`, following the
grammar accepted by `encoding/json.Unmarshal`) are defined executably.
-/

namespace GolangMisp

/-- JSON value AST, the wire-level data model used by `encoding/json`.
Numbers keep their literal spelling (no field of the decoded Go structures
has a numeric type, so numeric values are never interpreted). -/
inductive Json where
  | null : Json
  | bool (b : Bool) : Json
  | num (lit : String) : Json
  | str (s : String) : Json
  | arr (elems : List Json) : Json
  | obj (fields : List (String × Json)) : Json
deriving Repr

/-- The opening brace character, U+007B. -/
def lbrace : Char := Char.ofNat 123

/-- The closing brace character, U+007D. -/
def rbrace : Char := Char.ofNat 125

/-- Lowercase hexadecimal digit, as used by `encoding/json`'s escaper. -/
def hexDigitChar (n : Nat) : Char :=
  if n < 10 then Char.ofNat (48 + n) else Char.ofNat (87 + (n % 16))

/-- Escaping of one character inside a JSON string literal, following
`encoding/json.Marshal` (default encoder: HTML-escapes `<`, `>`, `&`,
escapes U+2028/U+2029 and control characters). -/
def escapeCharGo (c : Char) : String :=
  if c == '"' then "\\\""
  else if c == '\\' then "\\\\"
  else if c == '\n' then "\\n"
  else if c == '\r' then "\\r"
  else if c == '\t' then "\\t"
  else if c == '<' then "\\u003c"
  else if c == '>' then "\\u003e"
  else if c == '&' then "\\u0026"
  else if c.toNat < 32 then
    "\\u00" ++ String.singleton (hexDigitChar (c.toNat / 16)) ++
      String.singleton (hexDigitChar (c.toNat % 16))
  else if c.toNat == 8232 then "\\u2028"
  else if c.toNat == 8233 then "\\u2029"
  else String.singleton c

/-- JSON string literal quoting, as produced by `encoding/json.Marshal`. -/
def quoteGo (s : String) : String :=
  "\"" ++ String.join (s.toList.map escapeCharGo) ++ "\""

mutual

/-- Serialization of a JSON value to its byte representation, following
`encoding/json.Marshal` (no extra whitespace, object fields in order). -/
def Json.render : Json → String
  | .null => "null"
  | .bool b => if b then "true" else "false"
  | .num lit => lit
  | .str s => quoteGo s
  | .arr es => "[" ++ Json.renderArr es ++ "]"
  | .obj kvs => String.singleton lbrace ++ Json.renderObj kvs ++ String.singleton rbrace

/-- Comma-separated rendering of array elements. -/
def Json.renderArr : List Json → String
  | [] => ""
  | [v] => Json.render v
  | v :: vs => Json.render v ++ "," ++ Json.renderArr vs

/-- Comma-separated rendering of object members. -/
def Json.renderObj : List (String × Json) → String
  | [] => ""
  | [(k, v)] => quoteGo k ++ ":" ++ Json.render v
  | (k, v) :: kvs => quoteGo k ++ ":" ++ Json.render v ++ "," ++ Json.renderObj kvs

end

/-- JSON insignificant whitespace test (space, tab, newline, carriage return). -/
def isWsChar (c : Char) : Bool :=
  c == ' ' || c == '\t' || c == '\n' || c == '\r'

/-- Drop leading JSON whitespace. -/
def skipWs : List Char → List Char
  | c :: rest => if isWsChar c then skipWs rest else c :: rest
  | [] => []

/-- Value of one hexadecimal digit character, if any. -/
def hexVal (c : Char) : Option Nat :=
  if c.isDigit then some (c.toNat - 48)
  else if 97 ≤ c.toNat ∧ c.toNat ≤ 102 then some (c.toNat - 87)
  else if 65 ≤ c.toNat ∧ c.toNat ≤ 70 then some (c.toNat - 55)
  else none

/-- Four hexadecimal digits, as found after a `\u` escape. -/
def parseHex4 : List Char → Option (Nat × List Char)
  | a :: b :: c :: d :: rest =>
    match hexVal a, hexVal b, hexVal c, hexVal d with
    | some x, some y, some z, some w => some (((x * 16 + y) * 16 + z) * 16 + w, rest)
    | _, _, _, _ => none
  | _ => none

/-- Body of a JSON string literal after the opening quote, following the
`encoding/json` scanner and unquoter: the usual escapes, `\uXXXX` with
surrogate-pair combination, U+FFFD for unpaired surrogates, and a syntax
error on raw control characters or malformed escapes. -/
def parseStringBody : Nat → String → List Char → Option (String × List Char)
  | 0, _, _ => none
  | _, _, [] => none
  | fuel + 1, acc, c :: rest =>
    if c == '"' then some (acc, rest)
    else if c == '\\' then
      match rest with
      | [] => none
      | e :: rest2 =>
        if e == '"' then parseStringBody fuel (acc.push '"') rest2
        else if e == '\\' then parseStringBody fuel (acc.push '\\') rest2
        else if e == '/' then parseStringBody fuel (acc.push '/') rest2
        else if e == 'b' then parseStringBody fuel (acc.push (Char.ofNat 8)) rest2
        else if e == 'f' then parseStringBody fuel (acc.push (Char.ofNat 12)) rest2
        else if e == 'n' then parseStringBody fuel (acc.push '\n') rest2
        else if e == 'r' then parseStringBody fuel (acc.push '\r') rest2
        else if e == 't' then parseStringBody fuel (acc.push '\t') rest2
        else if e == 'u' then
          match parseHex4 rest2 with
          | none => none
          | some (n, rest3) =>
            if 55296 ≤ n ∧ n < 56320 then
              match rest3 with
              | '\\' :: 'u' :: rest4 =>
                match parseHex4 rest4 with
                | none => none
                | some (n2, rest5) =>
                  if 56320 ≤ n2 ∧ n2 < 57344 then
                    parseStringBody fuel
                      (acc.push (Char.ofNat (65536 + (n - 55296) * 1024 + (n2 - 56320)))) rest5
                  else
                    parseStringBody fuel (acc.push (Char.ofNat 65533)) ('\\' :: 'u' :: rest4)
              | _ => parseStringBody fuel (acc.push (Char.ofNat 65533)) rest3
            else if 56320 ≤ n ∧ n < 57344 then
              parseStringBody fuel (acc.push (Char.ofNat 65533)) rest3
            else
              parseStringBody fuel (acc.push (Char.ofNat n)) rest3
        else none
    else if c.toNat < 32 then none
    else parseStringBody fuel (acc.push c) rest

/-- Optional fraction part of a JSON number. -/
def parseFrac : List Char → Option (List Char × List Char)
  | '.' :: r =>
    match r.span Char.isDigit with
    | ([], _) => none
    | (ds, r2) => some ('.' :: ds, r2)
  | cs => some ([], cs)

/-- Optional exponent part of a JSON number. -/
def parseExp : List Char → Option (List Char × List Char)
  | [] => some ([], [])
  | e :: r =>
    if e == 'e' || e == 'E' then
      let (sg, r1) := match r with
        | '+' :: rr => (['+'], rr)
        | '-' :: rr => (['-'], rr)
        | _ => ([], r)
      match r1.span Char.isDigit with
      | ([], _) => none
      | (ds, r2) => some (e :: (sg ++ ds), r2)
    else some ([], e :: r)

/-- JSON number literal (kept as its spelling), per the JSON grammar the
`encoding/json` scanner enforces (no leading zeros, at least one digit in
each part). -/
def parseNumberLit (cs : List Char) : Option (String × List Char) :=
  let (sgn, cs1) := match cs with
    | '-' :: r => (['-'], r)
    | _ => ([], cs)
  match cs1 with
  | [] => none
  | c :: rest =>
    if ¬ c.isDigit then none
    else
      let (ipart, cs2) := if c == '0' then ([c], rest) else cs1.span Char.isDigit
      let leadOk : Bool :=
        if c == '0' then (match cs2 with | d :: _ => ¬ d.isDigit | [] => true) else true
      if ¬ leadOk then none
      else
        match parseFrac cs2 with
        | none => none
        | some (fpart, cs3) =>
          match parseExp cs3 with
          | none => none
          | some (epart, cs4) => some (String.mk (sgn ++ ipart ++ fpart ++ epart), cs4)

mutual

/-- One JSON value (leading whitespace allowed), with explicit fuel; the
fuel is a strict bound on recursion depth and is chosen large enough in
`parseJson` never to run out on any input. -/
def parseValue : Nat → List Char → Option (Json × List Char)
  | 0, _ => none
  | fuel + 1, cs =>
    match skipWs cs with
    | [] => none
    | c :: rest =>
      if c == 'n' then
        match rest with
        | 'u' :: 'l' :: 'l' :: r => some (.null, r)
        | _ => none
      else if c == 't' then
        match rest with
        | 'r' :: 'u' :: 'e' :: r => some (.bool true, r)
        | _ => none
      else if c == 'f' then
        match rest with
        | 'a' :: 'l' :: 's' :: 'e' :: r => some (.bool false, r)
        | _ => none
      else if c == '"' then
        match parseStringBody fuel "" rest with
        | some (s, r) => some (.str s, r)
        | none => none
      else if c == lbrace then
        match skipWs rest with
        | [] => none
        | d :: r2 =>
          if d == rbrace then some (.obj [], r2)
          else
            match parseObjItems fuel (d :: r2) with
            | some (kvs, r3) => some (.obj kvs, r3)
            | none => none
      else if c == '[' then
        match skipWs rest with
        | [] => none
        | d :: r2 =>
          if d == ']' then some (.arr [], r2)
          else
            match parseArrItems fuel (d :: r2) with
            | some (vs, r3) => some (.arr vs, r3)
            | none => none
      else
        match parseNumberLit (c :: rest) with
        | some (lit, r) => some (.num lit, r)
        | none => none

/-- Array elements after `[` (first element known non-`]`). -/
def parseArrItems : Nat → List Char → Option (List Json × List Char)
  | 0, _ => none
  | fuel + 1, cs =>
    match parseValue fuel cs with
    | none => none
    | some (v, r) =>
      match skipWs r with
      | [] => none
      | d :: r2 =>
        if d == ',' then
          match parseArrItems fuel r2 with
          | some (vs, r3) => some (v :: vs, r3)
          | none => none
        else if d == ']' then some ([v], r2)
        else none

/-- Object members after the opening brace (first member known present). -/
def parseObjItems : Nat → List Char → Option (List (String × Json) × List Char)
  | 0, _ => none
  | fuel + 1, cs =>
    match cs with
    | [] => none
    | c :: rest =>
      if c == '"' then
        match parseStringBody fuel "" rest with
        | none => none
        | some (k, r1) =>
          match skipWs r1 with
          | ':' :: r2 =>
            match parseValue fuel r2 with
            | none => none
            | some (v, r3) =>
              match skipWs r3 with
              | [] => none
              | d :: r4 =>
                if d == ',' then
                  match parseObjItems fuel (skipWs r4) with
                  | some (kvs, r5) => some ((k, v) :: kvs, r5)
                  | none => none
                else if d == rbrace then some ([(k, v)], r4)
                else none
          | _ => none
      else none

end

/-- Error values observed by the library's callers.  `misp` corresponds to
the `MispError` struct, `errorf` to `fmt.Errorf`/`errors.New` values,
`transportErr` to errors returned by `http.Client.Do`, and `jsonErr` to
errors produced by `encoding/json`. -/
inductive GoError where
  | misp (statusCode : Int) (message : String)
  | errorf (msg : String)
  | transportErr (msg : String)
  | jsonErr (msg : String)
deriving DecidableEq, Repr

/-- Syntax validation plus parsing of a whole JSON document, as
`encoding/json.Unmarshal`'s `checkValid` pass: the input must consist of
exactly one JSON value surrounded by whitespace. -/
def parseJson (s : String) : Except GoError Json :=
  match parseValue (4 * s.length + 16) s.toList with
  | some (j, rest) =>
    match skipWs rest with
    | [] => .ok j
    | _ => .error (.jsonErr "invalid character after top-level value")
  | none => .error (.jsonErr "unexpected end of JSON input")

/-- Org definition (`misp.go`). -/
structure Org where
  ID : String
  Name : String
  UUID : String
deriving DecidableEq, Repr

/-- MispAttribute : structure of attribute objects returned by the API
(`misp.go`), with its `json` tags recorded in the decoder below.
`StrTimestamp` carries the raw `timestamp` string. -/
structure MispAttribute where
  ID : String
  EventID : String
  UUID : String
  SharingGroupID : String
  StrTimestamp : String
  Distribution : String
  Category : String
  «Type» : String
  Value : String
  ToIDS : Bool
  Deleted : Bool
  Comment : String
deriving DecidableEq, Repr

/-- MispRelatedEvent definition (`misp.go`). -/
structure MispRelatedEvent where
  ID : String
  Date : String
  ThreatLevelID : String
  Info : String
  Published : Bool
  UUID : String
  Analysis : String
  StrTimestamp : String
  Distribution : String
  OrgID : String
  OrgcID : String
  Org : GolangMisp.Org
  Orgc : GolangMisp.Org
deriving DecidableEq, Repr

/-- MispEvent definition (`misp.go`). -/
structure MispEvent where
  ID : String
  OrgcID : String
  OrgID : String
  Date : String
  ThreatLevelID : String
  Info : String
  Published : Bool
  UUID : String
  AttributeCount : String
  Analysis : String
  StrTimestamp : String
  Distribution : String
  ProposalEmailLock : Bool
  Locked : Bool
  StrPublishedTimestamp : String
  SharingGroupID : String
  Org : GolangMisp.Org
  Orgc : GolangMisp.Org
  Attribute : List MispAttribute
  ShadowAttribute : List MispAttribute
  RelatedEvent : List MispRelatedEvent
  Galaxy : List MispRelatedEvent
deriving DecidableEq, Repr

/-- MispEventDict : intermediate wrapper `\x7b"Event": ...\x7d` (`misp.go`). -/
structure MispEventDict where
  Event : MispEvent
deriving DecidableEq, Repr

/-- MispEventResponse : event search response envelope (`misp.go`). -/
structure MispEventResponse where
  Response : List MispEventDict
deriving DecidableEq, Repr

/-- MispAttributeDict : intermediate wrapper holding the attribute list
(`misp.go`). -/
structure MispAttributeDict where
  Attribute : List MispAttribute
deriving DecidableEq, Repr

/-- MispAttributeResponse : attribute search response envelope (`misp.go`). -/
structure MispAttributeResponse where
  Response : MispAttributeDict
deriving DecidableEq, Repr

/-- MispEventQuery : query structure for the event search API (`misp.go`).
`SearchAll` is `int8` in Go; it is modelled as `Int` (its only use is the
`== 0` test of the `omitempty` option and decimal formatting). -/
structure MispEventQuery where
  Value : String
  «Type» : String
  Category : String
  Org : String
  Tags : String
  QuickFilter : String
  From : String
  To : String
  Last : String
  EventID : String
  WithAttachments : String
  Metadata : String
  SearchAll : Int
deriving DecidableEq, Repr

/-- MispAttributeQuery : query structure for the attribute search API
(`misp.go`). -/
structure MispAttributeQuery where
  Value : String
  «Type» : String
  Category : String
  Org : String
  Tags : String
  From : String
  To : String
  Last : String
  EventID : String
  UUID : String
deriving DecidableEq, Repr

/-- The zero value of `Org`. -/
def zeroOrg : Org := ⟨"", "", ""⟩

/-- The zero value of `MispAttribute`. -/
def zeroMispAttribute : MispAttribute :=
  ⟨"", "", "", "", "", "", "", "", "", false, false, ""⟩

/-- The zero value of `MispRelatedEvent`. -/
def zeroMispRelatedEvent : MispRelatedEvent :=
  ⟨"", "", "", "", false, "", "", "", "", "", "", zeroOrg, zeroOrg⟩

/-- The zero value of `MispEvent`. -/
def zeroMispEvent : MispEvent :=
  ⟨"", "", "", "", "", "", false, "", "", "", "", "", false, false, "", "",
    zeroOrg, zeroOrg, [], [], [], []⟩

/-- The zero value of `MispEventDict`. -/
def zeroMispEventDict : MispEventDict := ⟨zeroMispEvent⟩

/-- The zero value of `MispEventResponse`. -/
def zeroMispEventResponse : MispEventResponse := ⟨[]⟩

/-- The zero value of `MispAttributeDict`. -/
def zeroMispAttributeDict : MispAttributeDict := ⟨[]⟩

/-- The zero value of `MispAttributeResponse`. -/
def zeroMispAttributeResponse : MispAttributeResponse := ⟨zeroMispAttributeDict⟩

/-- The zero value of `MispEventQuery`. -/
def zeroMispEventQuery : MispEventQuery :=
  ⟨"", "", "", "", "", "", "", "", "", "", "", "", 0⟩

/-- The zero value of `MispAttributeQuery`. -/
def zeroMispAttributeQuery : MispAttributeQuery :=
  ⟨"", "", "", "", "", "", "", "", "", ""⟩

/-- First-error combination: `encoding/json`'s `saveError` keeps the first
decode error and keeps decoding. -/
def firstErr (a b : Option GoError) : Option GoError :=
  match a with
  | some e => some e
  | none => b

/-- Decoding of a JSON value into a `string`-typed struct field, per
`encoding/json`: a string sets the field, `null` leaves it untouched, any
other value is an `UnmarshalTypeError` leaving the field untouched. -/
def decodeStringField (cur : String) (v : Json) : String × Option GoError :=
  match v with
  | .str s => (s, none)
  | .null => (cur, none)
  | _ => (cur, some (.jsonErr "cannot unmarshal JSON value into field of type string"))

/-- Decoding of a JSON value into a `bool`-typed struct field, per
`encoding/json`. -/
def decodeBoolField (cur : Bool) (v : Json) : Bool × Option GoError :=
  match v with
  | .bool b => (b, none)
  | .null => (cur, none)
  | _ => (cur, some (.jsonErr "cannot unmarshal JSON value into field of type bool"))

/-- Decoding of a JSON value into a slice-typed struct field, per
`encoding/json`: an array decodes every element into a fresh zero value
(keeping the first element error, if any), `null` sets the slice to nil,
any other value is a type error leaving the field untouched. -/
def decodeListField (dec : α → Json → α × Option GoError) (zero : α)
    (cur : List α) (v : Json) : List α × Option GoError :=
  match v with
  | .arr xs =>
    (xs.map (fun x => (dec zero x).1),
      xs.foldl (fun e x => firstErr e (dec zero x).2) none)
  | .null => ([], none)
  | _ => (cur, some (.jsonErr "cannot unmarshal JSON value into field of slice type"))

/-- ASCII lower-casing of one character, as in `encoding/json`'s
case-insensitive field-name fold. -/
def asciiLowerChar (c : Char) : Char :=
  if 65 ≤ c.toNat ∧ c.toNat ≤ 90 then Char.ofNat (c.toNat + 32) else c

/-- ASCII case folding of a member key. -/
def foldKey (s : String) : String :=
  String.mk (s.toList.map asciiLowerChar)

/-- Iteration of `encoding/json`'s object decoding over the members of a
JSON object, dispatching each member through `step` (which receives the
case-folded key, mirroring Go's case-insensitive field matching; every
`json` tag in this package stays distinct under case folding, so the
exact-match-first rule coincides with case-folded matching). -/
def decodeStructFields (step : α → String → Json → α × Option GoError)
    (cur : α) (fields : List (String × Json)) : α × Option GoError :=
  fields.foldl
    (fun acc kv =>
      let (c, e) := step acc.1 (foldKey kv.1) kv.2
      (c, firstErr acc.2 e))
    (cur, none)

/-- Decoding of a JSON value into a struct-typed target, per
`encoding/json`: an object is decoded member-wise (unknown keys ignored),
`null` leaves the target untouched, anything else is a type error. -/
def decodeStructJson (step : α → String → Json → α × Option GoError)
    (typeName : String) (cur : α) (v : Json) : α × Option GoError :=
  match v with
  | .obj fields => decodeStructFields step cur fields
  | .null => (cur, none)
  | _ => (cur, some (.jsonErr ("cannot unmarshal JSON value into " ++ typeName)))

/-- Member dispatch for `Org` (tags `id`, `name`, `uuid`). -/
def decodeOrgKey (cur : Org) (k : String) (v : Json) : Org × Option GoError :=
  if k == "id" then let (x, e) := decodeStringField cur.ID v; ({ cur with ID := x }, e)
  else if k == "name" then let (x, e) := decodeStringField cur.Name v; ({ cur with Name := x }, e)
  else if k == "uuid" then let (x, e) := decodeStringField cur.UUID v; ({ cur with UUID := x }, e)
  else (cur, none)

/-- Decoding of a JSON value into an `Org`. -/
def decodeOrg (cur : Org) (v : Json) : Org × Option GoError :=
  decodeStructJson decodeOrgKey "Org" cur v

/-- Member dispatch for `MispAttribute` (its `json` tags). -/
def decodeMispAttributeKey (cur : MispAttribute) (k : String) (v : Json) :
    MispAttribute × Option GoError :=
  if k == "id" then let (x, e) := decodeStringField cur.ID v; ({ cur with ID := x }, e)
  else if k == "event_id" then let (x, e) := decodeStringField cur.EventID v; ({ cur with EventID := x }, e)
  else if k == "uuid" then let (x, e) := decodeStringField cur.UUID v; ({ cur with UUID := x }, e)
  else if k == "sharing_group_id" then let (x, e) := decodeStringField cur.SharingGroupID v; ({ cur with SharingGroupID := x }, e)
  else if k == "timestamp" then let (x, e) := decodeStringField cur.StrTimestamp v; ({ cur with StrTimestamp := x }, e)
  else if k == "distribution" then let (x, e) := decodeStringField cur.Distribution v; ({ cur with Distribution := x }, e)
  else if k == "category" then let (x, e) := decodeStringField cur.Category v; ({ cur with Category := x }, e)
  else if k == "type" then let (x, e) := decodeStringField cur.«Type» v; ({ cur with «Type» := x }, e)
  else if k == "value" then let (x, e) := decodeStringField cur.Value v; ({ cur with Value := x }, e)
  else if k == "to_ids" then let (x, e) := decodeBoolField cur.ToIDS v; ({ cur with ToIDS := x }, e)
  else if k == "deleted" then let (x, e) := decodeBoolField cur.Deleted v; ({ cur with Deleted := x }, e)
  else if k == "comment" then let (x, e) := decodeStringField cur.Comment v; ({ cur with Comment := x }, e)
  else (cur, none)

/-- Decoding of a JSON value into a `MispAttribute`. -/
def decodeMispAttribute (cur : MispAttribute) (v : Json) : MispAttribute × Option GoError :=
  decodeStructJson decodeMispAttributeKey "MispAttribute" cur v

/-- Member dispatch for `MispRelatedEvent` (its `json` tags; `Org`/`Orgc`
tags case-fold to `org`/`orgc`). -/
def decodeMispRelatedEventKey (cur : MispRelatedEvent) (k : String) (v : Json) :
    MispRelatedEvent × Option GoError :=
  if k == "id" then let (x, e) := decodeStringField cur.ID v; ({ cur with ID := x }, e)
  else if k == "date" then let (x, e) := decodeStringField cur.Date v; ({ cur with Date := x }, e)
  else if k == "threat_level_id" then let (x, e) := decodeStringField cur.ThreatLevelID v; ({ cur with ThreatLevelID := x }, e)
  else if k == "info" then let (x, e) := decodeStringField cur.Info v; ({ cur with Info := x }, e)
  else if k == "published" then let (x, e) := decodeBoolField cur.Published v; ({ cur with Published := x }, e)
  else if k == "uuid" then let (x, e) := decodeStringField cur.UUID v; ({ cur with UUID := x }, e)
  else if k == "analysis" then let (x, e) := decodeStringField cur.Analysis v; ({ cur with Analysis := x }, e)
  else if k == "timestamp" then let (x, e) := decodeStringField cur.StrTimestamp v; ({ cur with StrTimestamp := x }, e)
  else if k == "distribution" then let (x, e) := decodeStringField cur.Distribution v; ({ cur with Distribution := x }, e)
  else if k == "org_id" then let (x, e) := decodeStringField cur.OrgID v; ({ cur with OrgID := x }, e)
  else if k == "orgc_id" then let (x, e) := decodeStringField cur.OrgcID v; ({ cur with OrgcID := x }, e)
  else if k == "org" then let (x, e) := decodeOrg cur.Org v; ({ cur with Org := x }, e)
  else if k == "orgc" then let (x, e) := decodeOrg cur.Orgc v; ({ cur with Orgc := x }, e)
  else (cur, none)

/-- Decoding of a JSON value into a `MispRelatedEvent`. -/
def decodeMispRelatedEvent (cur : MispRelatedEvent) (v : Json) :
    MispRelatedEvent × Option GoError :=
  decodeStructJson decodeMispRelatedEventKey "MispRelatedEvent" cur v

/-- Member dispatch for `MispEvent` (its `json` tags; the capitalized tags
`Org`, `Orgc`, `Attribute`, `ShadowAttribute`, `RelatedEvent`, `Galaxy`
case-fold to the keys used here). -/
def decodeMispEventKey (cur : MispEvent) (k : String) (v : Json) :
    MispEvent × Option GoError :=
  if k == "id" then let (x, e) := decodeStringField cur.ID v; ({ cur with ID := x }, e)
  else if k == "orgc_id" then let (x, e) := decodeStringField cur.OrgcID v; ({ cur with OrgcID := x }, e)
  else if k == "org_id" then let (x, e) := decodeStringField cur.OrgID v; ({ cur with OrgID := x }, e)
  else if k == "date" then let (x, e) := decodeStringField cur.Date v; ({ cur with Date := x }, e)
  else if k == "threat_level_id" then let (x, e) := decodeStringField cur.ThreatLevelID v; ({ cur with ThreatLevelID := x }, e)
  else if k == "info" then let (x, e) := decodeStringField cur.Info v; ({ cur with Info := x }, e)
  else if k == "published" then let (x, e) := decodeBoolField cur.Published v; ({ cur with Published := x }, e)
  else if k == "uuid" then let (x, e) := decodeStringField cur.UUID v; ({ cur with UUID := x }, e)
  else if k == "attribute_count" then let (x, e) := decodeStringField cur.AttributeCount v; ({ cur with AttributeCount := x }, e)
  else if k == "analysis" then let (x, e) := decodeStringField cur.Analysis v; ({ cur with Analysis := x }, e)
  else if k == "timestamp" then let (x, e) := decodeStringField cur.StrTimestamp v; ({ cur with StrTimestamp := x }, e)
  else if k == "distribution" then let (x, e) := decodeStringField cur.Distribution v; ({ cur with Distribution := x }, e)
  else if k == "proposal_email_lock" then let (x, e) := decodeBoolField cur.ProposalEmailLock v; ({ cur with ProposalEmailLock := x }, e)
  else if k == "locked" then let (x, e) := decodeBoolField cur.Locked v; ({ cur with Locked := x }, e)
  else if k == "publish_timestamp" then let (x, e) := decodeStringField cur.StrPublishedTimestamp v; ({ cur with StrPublishedTimestamp := x }, e)
  else if k == "sharing_group_id" then let (x, e) := decodeStringField cur.SharingGroupID v; ({ cur with SharingGroupID := x }, e)
  else if k == "org" then let (x, e) := decodeOrg cur.Org v; ({ cur with Org := x }, e)
  else if k == "orgc" then let (x, e) := decodeOrg cur.Orgc v; ({ cur with Orgc := x }, e)
  else if k == "attribute" then let (x, e) := decodeListField decodeMispAttribute zeroMispAttribute cur.Attribute v; ({ cur with Attribute := x }, e)
  else if k == "shadowattribute" then let (x, e) := decodeListField decodeMispAttribute zeroMispAttribute cur.ShadowAttribute v; ({ cur with ShadowAttribute := x }, e)
  else if k == "relatedevent" then let (x, e) := decodeListField decodeMispRelatedEvent zeroMispRelatedEvent cur.RelatedEvent v; ({ cur with RelatedEvent := x }, e)
  else if k == "galaxy" then let (x, e) := decodeListField decodeMispRelatedEvent zeroMispRelatedEvent cur.Galaxy v; ({ cur with Galaxy := x }, e)
  else (cur, none)

/-- Decoding of a JSON value into a `MispEvent`. -/
def decodeMispEvent (cur : MispEvent) (v : Json) : MispEvent × Option GoError :=
  decodeStructJson decodeMispEventKey "MispEvent" cur v

/-- Member dispatch for `MispEventDict` (tag `Event`). -/
def decodeMispEventDictKey (cur : MispEventDict) (k : String) (v : Json) :
    MispEventDict × Option GoError :=
  if k == "event" then let (x, e) := decodeMispEvent cur.Event v; ({ cur with Event := x }, e)
  else (cur, none)

/-- Decoding of a JSON value into a `MispEventDict`. -/
def decodeMispEventDict (cur : MispEventDict) (v : Json) : MispEventDict × Option GoError :=
  decodeStructJson decodeMispEventDictKey "MispEventDict" cur v

/-- Member dispatch for `MispEventResponse` (tag `response`). -/
def decodeMispEventResponseKey (cur : MispEventResponse) (k : String) (v : Json) :
    MispEventResponse × Option GoError :=
  if k == "response" then
    let (x, e) := decodeListField decodeMispEventDict zeroMispEventDict cur.Response v
    ({ cur with Response := x }, e)
  else (cur, none)

/-- Decoding of a JSON value into a `MispEventResponse`. -/
def decodeMispEventResponse (cur : MispEventResponse) (v : Json) :
    MispEventResponse × Option GoError :=
  decodeStructJson decodeMispEventResponseKey "MispEventResponse" cur v

/-- Member dispatch for `MispAttributeDict` (tag `Attribute`). -/
def decodeMispAttributeDictKey (cur : MispAttributeDict) (k : String) (v : Json) :
    MispAttributeDict × Option GoError :=
  if k == "attribute" then
    let (x, e) := decodeListField decodeMispAttribute zeroMispAttribute cur.Attribute v
    ({ cur with Attribute := x }, e)
  else (cur, none)

/-- Decoding of a JSON value into a `MispAttributeDict`. -/
def decodeMispAttributeDict (cur : MispAttributeDict) (v : Json) :
    MispAttributeDict × Option GoError :=
  decodeStructJson decodeMispAttributeDictKey "MispAttributeDict" cur v

/-- Member dispatch for `MispAttributeResponse` (tag `response`). -/
def decodeMispAttributeResponseKey (cur : MispAttributeResponse) (k : String) (v : Json) :
    MispAttributeResponse × Option GoError :=
  if k == "response" then
    let (x, e) := decodeMispAttributeDict cur.Response v
    ({ cur with Response := x }, e)
  else (cur, none)

/-- Decoding of a JSON value into a `MispAttributeResponse`. -/
def decodeMispAttributeResponse (cur : MispAttributeResponse) (v : Json) :
    MispAttributeResponse × Option GoError :=
  decodeStructJson decodeMispAttributeResponseKey "MispAttributeResponse" cur v

/-- Model of `json.Unmarshal(bResp, &mer)` for the event search response: syntax
check/parse of the whole body, then decoding; a syntax error leaves the
target at its zero value, a decode (shape) error leaves it partially
populated. -/
def unmarshalMispEventResponse (s : String) : MispEventResponse × Option GoError :=
  match parseJson s with
  | .error e => (zeroMispEventResponse, some e)
  | .ok j => decodeMispEventResponse zeroMispEventResponse j

/-- Model of `json.Unmarshal(bResp, &mar)` for the attribute search response. -/
def unmarshalMispAttributeResponse (s : String) : MispAttributeResponse × Option GoError :=
  match parseJson s with
  | .error e => (zeroMispAttributeResponse, some e)
  | .ok j => decodeMispAttributeResponse zeroMispAttributeResponse j

/-- One serialized member of a string struct field carrying the
`omitempty` option: omitted when the value is the empty string. -/
def stringFieldJson (tag : String) (v : String) : List (String × Json) :=
  if v = "" then [] else [(tag, Json.str v)]

/-- One serialized member of an integer struct field carrying the
`omitempty` option: omitted when the value is zero. -/
def int8FieldJson (tag : String) (v : Int) : List (String × Json) :=
  if v = 0 then [] else [(tag, Json.num (toString v))]

/-- The members `json.Marshal` emits for a `MispEventQuery`, in field
declaration order, honouring each field's `omitempty` option. -/
def eventQueryFieldsGo (q : MispEventQuery) : List (String × Json) :=
  stringFieldJson "value" q.Value ++
  stringFieldJson "type" q.«Type» ++
  stringFieldJson "category" q.Category ++
  stringFieldJson "org" q.Org ++
  stringFieldJson "tags" q.Tags ++
  stringFieldJson "quickfilter" q.QuickFilter ++
  stringFieldJson "from" q.From ++
  stringFieldJson "to" q.To ++
  stringFieldJson "last" q.Last ++
  stringFieldJson "eventid" q.EventID ++
  stringFieldJson "withAttachments" q.WithAttachments ++
  stringFieldJson "metadata" q.Metadata ++
  int8FieldJson "searchall" q.SearchAll

/-- The members `json.Marshal` emits for a `MispAttributeQuery`. -/
def attributeQueryFieldsGo (q : MispAttributeQuery) : List (String × Json) :=
  stringFieldJson "value" q.Value ++
  stringFieldJson "type" q.«Type» ++
  stringFieldJson "category" q.Category ++
  stringFieldJson "org" q.Org ++
  stringFieldJson "tags" q.Tags ++
  stringFieldJson "from" q.From ++
  stringFieldJson "to" q.To ++
  stringFieldJson "last" q.Last ++
  stringFieldJson "eventid" q.EventID ++
  stringFieldJson "uuid" q.UUID

/-- Prepare : MispQuery implementation for `MispEventQuery`:
`json.Marshal(MispRequest\x7bmeq\x7d)`, the query marshalled inside the
single-field `request` envelope.  Marshalling of these flat structures
never fails, so the `panic(err)` branch of the source is unreachable and
the result is the byte string itself. -/
def MispEventQuery.Prepare (meq : MispEventQuery) : String :=
  (Json.obj [("request", Json.obj (eventQueryFieldsGo meq))]).render

/-- Prepare : MispQuery implementation for `MispAttributeQuery`. -/
def MispAttributeQuery.Prepare (maq : MispAttributeQuery) : String :=
  (Json.obj [("request", Json.obj (attributeQueryFieldsGo maq))]).render

/-- The configuration of the `http.Client` handle held by a connection;
only the certificate-verification distinction between the two constructors
is retained (timeouts and proxy settings play no role in any claim). -/
structure HttpClient where
  InsecureSkipVerify : Bool
deriving DecidableEq, Repr

/-- MispCon : a connection to a MISP instance (`misp.go`). -/
structure MispCon where
  Proto : String
  Host : String
  APIKey : String
  Client : HttpClient
deriving DecidableEq, Repr

/-- Rendering `MispError.Error()`: the string form of a `MispError`. -/
def mispErrorString (statusCode : Int) (message : String) : String :=
  "MISP ERROR (HTTP " ++ toString statusCode ++ ") : " ++ message

/-- ErrUnknownProtocol : raised when a bad protocol is specified
(`errors.New("Unknown protocol")`). -/
def ErrUnknownProtocol : GoError := .errorf "Unknown protocol"

/-- NewInsecureCon : a new `MispCon` whose TLS transport skips certificate
verification.  The `panic(ErrUnknownProtocol)` on a scheme other than
`http`/`https` is modelled as the `error` branch; construction involves no
network interaction (no transport argument). -/
def NewInsecureCon (proto host apiKey : String) : Except GoError MispCon :=
  if proto ≠ "http" ∧ proto ≠ "https" then .error ErrUnknownProtocol
  else .ok ⟨proto, host, apiKey, ⟨true⟩⟩

/-- NewCon : a new `MispCon` with the default HTTP client; same scheme
validation as `NewInsecureCon`. -/
def NewCon (proto host apiKey : String) : Except GoError MispCon :=
  if proto ≠ "http" ∧ proto ≠ "https" then .error ErrUnknownProtocol
  else .ok ⟨proto, host, apiKey, ⟨false⟩⟩

/-- Model of `strings.TrimLeft(s, cutset)`: removes the leading characters
contained in `cutset` (and only the leading ones). -/
def stringsTrimLeft (s cutset : String) : String :=
  String.mk (s.toList.dropWhile (fun c => cutset.toList.contains c))

/-- buildURL : `fmt.Sprintf("%s://%s/%s", proto, host,
strings.Join(path, "/"))` after `strings.TrimLeft(p, "/")` on each
segment. -/
def MispCon.buildURL (mc : MispCon) (path : List String) : String :=
  mc.Proto ++ "://" ++ mc.Host ++ "/" ++
    String.intercalate "/" (path.map (fun p => stringsTrimLeft p "/"))

/-- An HTTP request as assembled by `prepareRequest` (method, URL, headers
and body; `http.NewRequest` is modelled as always succeeding, its error
path is never taken for the constant methods used here). -/
structure HttpRequest where
  Method : String
  URL : String
  Header : List (String × String)
  Body : String
deriving DecidableEq, Repr

/-- Modelled from the spec: the client version string interpolated in the
`User-Agent` header ("a client identification header"); the file defining
the `version` constant is not under `src/`, and no claim depends on its
value. -/
def version : String := ""

/-- prepareRequest : attaches the `Authorization`,
`Content-Type`, `Accept` and `User-Agent` headers. -/
def MispCon.prepareRequest (mc : MispCon) (method url body : String) : HttpRequest :=
  ⟨method, url,
    [("Authorization", mc.APIKey),
     ("Content-Type", "application/json"),
     ("Accept", "application/json"),
     ("User-Agent", "GolangMisp/" ++ version ++ " (https://github.com/0xrawsec/golang-misp)")],
    body⟩

/-- Outcome of one HTTP round trip (`http.Client.Do`): either a response
with a status code and a raw body, or a transport failure. -/
inductive HttpResult where
  | response (statusCode : Int) (body : String)
  | failure (msg : String)
deriving DecidableEq, Repr

/-- The dynamic values inhabiting the `MispQuery` interface inside this
program: the two implementing struct types, and pointers to them (the
value-receiver `Prepare` method places pointer types in the interface's
method set as well, so `*MispAttributeQuery` / `*MispEventQuery` values
also satisfy `MispQuery`). -/
inductive MispQueryVal where
  | attributeQuery (q : MispAttributeQuery)
  | eventQuery (q : MispEventQuery)
  | ptrAttributeQuery (q : MispAttributeQuery)
  | ptrEventQuery (q : MispEventQuery)
deriving DecidableEq, Repr

/-- Dynamic dispatch of `Prepare` through the `MispQuery` interface
(a pointer receiver forwards to the value method). -/
def MispQueryVal.Prepare : MispQueryVal → String
  | .attributeQuery q => q.Prepare
  | .eventQuery q => q.Prepare
  | .ptrAttributeQuery q => q.Prepare
  | .ptrEventQuery q => q.Prepare

/-- The match condition of the type switch in `MispCon.Search`: only the
two value types `MispAttributeQuery` and `MispEventQuery` are cases of the
switch. -/
def isMatchedQueryVariant : MispQueryVal → Bool
  | .attributeQuery _ => true
  | .eventQuery _ => true
  | _ => false

/-- A domain object sent on the `Iter` channel (`MispObject` is
`interface\x7b\x7d` in Go; the values actually sent are `MispEvent` and
`MispAttribute` values). -/
inductive MispObject where
  | event (e : MispEvent)
  | attribute (a : MispAttribute)
deriving DecidableEq, Repr

/-- EmptyMispResponse (`misp.go`). -/
structure EmptyMispResponse where
deriving DecidableEq, Repr

/-- Iter : MispResponse implementation for `EmptyMispResponse` — the
channel is closed immediately, so the emitted sequence is empty. -/
def EmptyMispResponse.Iter (_ : EmptyMispResponse) : List MispObject := []

/-- Iter : MispResponse implementation for `MispEventResponse` — one
`MispEvent` per element of `Response`, in slice order. -/
def MispEventResponse.Iter (mer : MispEventResponse) : List MispObject :=
  mer.Response.map (fun d => .event d.Event)

/-- Iter : MispResponse implementation for `MispAttributeResponse` — one
`MispAttribute` per element of `Response.Attribute`, in slice order. -/
def MispAttributeResponse.Iter (mar : MispAttributeResponse) : List MispObject :=
  mar.Response.Attribute.map (fun a => .attribute a)

/-- The dynamic values inhabiting the `MispResponse` interface that
`Search` can return. -/
inductive MispResponseVal where
  | empty
  | events (mer : MispEventResponse)
  | attributes (mar : MispAttributeResponse)
deriving DecidableEq, Repr

/-- Dynamic dispatch of `Iter` through the `MispResponse` interface. -/
def MispResponseVal.Iter : MispResponseVal → List MispObject
  | .empty => EmptyMispResponse.Iter ⟨⟩
  | .events mer => mer.Iter
  | .attributes mar => mar.Iter

/-- postSearch : builds the `<kind>/restSearch/download` URL,
POSTs the prepared query, and returns the body on HTTP 200 or an empty
byte string together with a `MispError` carrying the status code and the
raw body on any other status; a transport failure is returned as-is.  The
second component records the HTTP requests performed. -/
def MispCon.postSearch (mc : MispCon) (kind : String) (mq : MispQueryVal)
    (transport : HttpRequest → HttpResult) : (String × Option GoError) × List HttpRequest :=
  let fullURL := mc.buildURL [kind, "restSearch", "download"]
  let pReq := mc.prepareRequest "POST" fullURL mq.Prepare
  match transport pReq with
  | .failure msg => (("", some (.transportErr msg)), [pReq])
  | .response code body =>
    if code = 200 then ((body, none), [pReq])
    else (("", some (.misp code body)), [pReq])

/-- Search : issues a search for the query and returns a `MispResponse`
implementation together with the error, exactly following the type switch
of the source: the two value variants dispatch to their endpoint and
decoder, anything else returns `EmptyMispResponse` and
`fmt.Errorf("Empty Response")` without performing any HTTP request. -/
def MispCon.Search (mc : MispCon) (mq : MispQueryVal)
    (transport : HttpRequest → HttpResult) :
    (MispResponseVal × Option GoError) × List HttpRequest :=
  match mq with
  | .attributeQuery _ =>
    match mc.postSearch "attributes" mq transport with
    | ((_, some e), reqs) => ((.empty, some e), reqs)
    | ((bResp, none), reqs) =>
      match unmarshalMispAttributeResponse bResp with
      | (mar, some e) => ((.attributes mar, some e), reqs)
      | (mar, none) => ((.attributes mar, none), reqs)
  | .eventQuery _ =>
    match mc.postSearch "events" mq transport with
    | ((_, some e), reqs) => ((.empty, some e), reqs)
    | ((bResp, none), reqs) =>
      match unmarshalMispEventResponse bResp with
      | (mer, some e) => ((.events mer, some e), reqs)
      | (mer, none) => ((.events mer, none), reqs)
  | _ => ((.empty, some (.errorf "Empty Response")), [])

/-- Split a character stream at newline characters. -/
def splitOnNl : List Char → List (List Char)
  | [] => [[]]
  | c :: rest =>
    let r := splitOnNl rest
    if c == '\n' then [] :: r
    else
      match r with
      | h :: t => (c :: h) :: t
      | [] => [[c]]

/-- Modelled from the spec: `readers.Readlines` (dependency
`golang-utils/readers`, not under `src/`) — "streams response body line by
line": standard line scanning, one item per line, line terminators
(`\n`, with an optional preceding `\r`) removed, no trailing empty line
when the body ends with a newline. -/
def readlines (s : String) : List String :=
  let parts := splitOnNl s.toList
  let parts := if parts.getLast? = some [] then parts.dropLast else parts
  parts.map (fun l => String.mk (if l.getLast? = some '\r' then l.dropLast else l))

/-- The deduplication loop of `TextExport`: `marked` is the set of lines
already seen (`datastructs.SyncedSet`, dependency not under `src/`,
modelled as a list with membership as `Contains`), `out` the output
accumulated so far; a line is appended only when not yet marked, and every
line is marked after processing. -/
def textExportLoop (marked : List String) (out : List String) :
    List String → List String
  | [] => out
  | txt :: rest =>
    textExportLoop (txt :: marked)
      (if txt ∈ marked then out else out ++ [txt]) rest

/-- TextExport : text export API wrapper: GET on
`attributes/text/download/<flags...>`, on HTTP 200 the deduplicated lines
of the body (first occurrence wins, order preserved), on any other status
the empty list and a `MispError` with the status code and raw body. -/
def MispCon.TextExport (mc : MispCon) (flags : List String)
    (transport : HttpRequest → HttpResult) :
    (List String × Option GoError) × List HttpRequest :=
  let path := ["attributes", "text", "download"] ++ flags
  let url := mc.buildURL path
  let pReq := mc.prepareRequest "GET" url ""
  match transport pReq with
  | .failure msg => (([], some (.transportErr msg)), [pReq])
  | .response code body =>
    if code = 200 then ((textExportLoop [] [] (readlines body), none), [pReq])
    else (([], some (.misp code body)), [pReq])

/-- Model of `strconv.ParseInt(s, 10, 64)`: optional sign, at least one decimal
digit, nothing else; the value must fit a signed 64-bit integer.  The
`NumError` values are modelled with their message strings (the `%q`
quoting of `s` simplified to plain quotes). -/
def parseIntGo (s : String) : Except GoError Int :=
  if s = "" then
    .error (.errorf ("strconv.ParseInt: parsing \"" ++ s ++ "\": invalid syntax"))
  else
    let (neg, digits) :=
      match s.toList with
      | '+' :: rest => (false, rest)
      | '-' :: rest => (true, rest)
      | l => (false, l)
    if digits = [] ∨ digits.any (fun c => !c.isDigit) then
      .error (.errorf ("strconv.ParseInt: parsing \"" ++ s ++ "\": invalid syntax"))
    else
      let mag : Nat := digits.foldl (fun acc c => acc * 10 + (c.toNat - 48)) 0
      let v : Int := if neg then -(mag : Int) else (mag : Int)
      if v < -(2 ^ 63) ∨ 2 ^ 63 - 1 < v then
        .error (.errorf ("strconv.ParseInt: parsing \"" ++ s ++ "\": value out of range"))
      else .ok v

/-- An instant in time, identified by its count of whole seconds since the
Unix epoch (`time.Time` values produced by `time.Unix(sec, 0)`; the
instant is zone-independent). -/
structure Time where
  unixSec : Int
deriving DecidableEq, Repr

/-- Model of `time.Unix(sec, 0)`. -/
def timeUnix (sec : Int) : Time := ⟨sec⟩

/-- Timestamp : `MispEvent` — `strconv.ParseInt` of the raw `timestamp`
string, then `time.Unix(sec, 0)`; the `panic(err)` on a parse failure is
the `error` branch. -/
def MispEvent.Timestamp (me : MispEvent) : Except GoError Time :=
  match parseIntGo me.StrTimestamp with
  | .ok sec => .ok (timeUnix sec)
  | .error e => .error e

/-- PublishedTimestamp : `MispEvent`, same contract on the raw
`publish_timestamp` string. -/
def MispEvent.PublishedTimestamp (me : MispEvent) : Except GoError Time :=
  match parseIntGo me.StrPublishedTimestamp with
  | .ok sec => .ok (timeUnix sec)
  | .error e => .error e

/-- Timestamp : `MispAttribute`. -/
def MispAttribute.Timestamp (ma : MispAttribute) : Except GoError Time :=
  match parseIntGo ma.StrTimestamp with
  | .ok sec => .ok (timeUnix sec)
  | .error e => .error e

/-- Timestamp : `MispRelatedEvent`. -/
def MispRelatedEvent.Timestamp (mre : MispRelatedEvent) : Except GoError Time :=
  match parseIntGo mre.StrTimestamp with
  | .ok sec => .ok (timeUnix sec)
  | .error e => .error e

/-- A calendar date and wall-clock time, for reading an instant in UTC. -/
structure DateTime where
  Year : Int
  Month : Nat
  Day : Nat
  Hour : Nat
  Minute : Nat
  Second : Nat
deriving DecidableEq, Repr

/-- The UTC calendar reading of an instant (proleptic Gregorian civil
date from the day count, floor-based division for instants before the
epoch). -/
def utcOfUnix (t : Time) : DateTime :=
  let sec := t.unixSec
  let days : Int := sec.ediv 86400
  let sod : Int := sec.emod 86400
  let z : Int := days + 719468
  let era : Int := z.ediv 146097
  let doe : Int := z.emod 146097
  let yoe : Int := (doe - doe.ediv 1460 + doe.ediv 36524 - doe.ediv 146096).ediv 365
  let y : Int := yoe + era * 400
  let doy : Int := doe - (365 * yoe + yoe.ediv 4 - yoe.ediv 100)
  let mp : Int := (5 * doy + 2).ediv 153
  let d : Int := doy - (153 * mp + 2).ediv 5 + 1
  let m : Int := mp + (if mp < 10 then 3 else -9)
  ⟨y + (if m ≤ 2 then 1 else 0), m.toNat, d.toNat,
    (sod.ediv 3600).toNat, ((sod.emod 3600).ediv 60).toNat, (sod.emod 60).toNat⟩

/-- Recursive formulation of the deduplication performed by the
`TextExport` loop: keep an element when it is not in `marked`, and mark
every element seen. -/
def dedupFirstGo (marked : List String) : List String → List String
  | [] => []
  | x :: xs =>
    if x ∈ marked then dedupFirstGo (x :: marked) xs
    else x :: dedupFirstGo (x :: marked) xs

/-- C2: for every HTTP response with a status code other than 200 (for
either matched query variant), `Search` returns the Empty response
together with an error whose status-code field equals the HTTP status code
and whose message field is the raw response body verbatim. -/
theorem search_non200_returns_empty_and_misperror :
    ∀ (mc : MispCon) (t : HttpRequest → HttpResult) (s : String) (code : Int),
      code ≠ 200 → (∀ r, t r = HttpResult.response code s) →
      (∀ q : MispAttributeQuery,
        (mc.Search (MispQueryVal.attributeQuery q) t).1 =
          (MispResponseVal.empty, some (GoError.misp code s))) ∧
      (∀ q : MispEventQuery,
        (mc.Search (MispQueryVal.eventQuery q) t).1 =
          (MispResponseVal.empty, some (GoError.misp code s))) := by
  intro mc t s code hcode ht
  constructor <;> intro q <;>
    simp [MispCon.Search, MispCon.postSearch, ht, hcode]

/-- Witness for C2: a 404 response with body `Not Found`. -/
theorem search_non200_returns_empty_and_misperror_witness :
    (MispCon.Search ⟨"http", "h", "k", ⟨false⟩⟩
        (MispQueryVal.attributeQuery zeroMispAttributeQuery)
        (fun _ => HttpResult.response 404 "Not Found")).1 =
      (MispResponseVal.empty, some (GoError.misp 404 "Not Found")) :=
  (search_non200_returns_empty_and_misperror ⟨"http", "h", "k", ⟨false⟩⟩
      (fun _ => HttpResult.response 404 "Not Found") "Not Found" 404
      (by decide) (fun _ => rfl)).1 zeroMispAttributeQuery

/-- C4: for every query argument that matches neither value case of the
type switch, `Search` returns the Empty response together with the
explicit error constructed at the no-matching-query-type fallthrough
(`fmt.Errorf("Empty Response")`), as a returned error value — not a
panic — and performs no HTTP request (empty request trace). -/
theorem search_unmatched_query_returns_empty_error :
    ∀ (mc : MispCon) (mq : MispQueryVal) (t : HttpRequest → HttpResult),
      isMatchedQueryVariant mq = false →
      mc.Search mq t =
        ((MispResponseVal.empty, some (GoError.errorf "Empty Response")), []) := by
  intro mc mq t h
  cases mq <;> simp_all [isMatchedQueryVariant, MispCon.Search]

/-- Witness for C4: a pointer-typed query value. -/
theorem search_unmatched_query_returns_empty_error_witness :
    MispCon.Search ⟨"http", "h", "k", ⟨false⟩⟩
        (MispQueryVal.ptrEventQuery zeroMispEventQuery) (fun _ => HttpResult.failure "x") =
      ((MispResponseVal.empty, some (GoError.errorf "Empty Response")), []) :=
  search_unmatched_query_returns_empty_error ⟨"http", "h", "k", ⟨false⟩⟩
    (MispQueryVal.ptrEventQuery zeroMispEventQuery) (fun _ => HttpResult.failure "x") rfl

/-- C10: a pointer to a query satisfies the `MispQuery` interface but
matches neither case of the type switch, so `Search` performs no HTTP
request (empty request trace) and returns the Empty response together
with the unrecognized-variant error. -/
theorem search_pointer_query_falls_through :
    ∀ (mc : MispCon) (t : HttpRequest → HttpResult)
      (qa : MispAttributeQuery) (qe : MispEventQuery),
      mc.Search (MispQueryVal.ptrAttributeQuery qa) t =
        ((MispResponseVal.empty, some (GoError.errorf "Empty Response")), []) ∧
      mc.Search (MispQueryVal.ptrEventQuery qe) t =
        ((MispResponseVal.empty, some (GoError.errorf "Empty Response")), []) := by
  intro mc t qa qe
  exact ⟨rfl, rfl⟩

/-- C7: both connection constructors reject any scheme other than `http`
and `https` at construction time (modelled as the `error` branch of the
pure constructor, which involves no transport), and for the two allowed
schemes they return a connection holding the given scheme, host and API
key. -/
theorem constructors_validate_scheme :
    (∀ proto host apiKey : String, proto ≠ "http" → proto ≠ "https" →
      NewCon proto host apiKey = Except.error ErrUnknownProtocol ∧
      NewInsecureCon proto host apiKey = Except.error ErrUnknownProtocol) ∧
    (∀ host apiKey : String,
      NewCon "http" host apiKey = Except.ok ⟨"http", host, apiKey, ⟨false⟩⟩ ∧
      NewCon "https" host apiKey = Except.ok ⟨"https", host, apiKey, ⟨false⟩⟩ ∧
      NewInsecureCon "http" host apiKey = Except.ok ⟨"http", host, apiKey, ⟨true⟩⟩ ∧
      NewInsecureCon "https" host apiKey = Except.ok ⟨"https", host, apiKey, ⟨true⟩⟩) := by
  constructor
  · intro proto host apiKey h1 h2
    constructor <;> simp [NewCon, NewInsecureCon, h1, h2]
  · intro host apiKey
    refine ⟨?_, ?_, ?_, ?_⟩ <;> rfl

/-- Witness for C7: scheme `ftp` is rejected by both constructors. -/
theorem constructors_validate_scheme_witness :
    NewCon "ftp" "h" "k" = Except.error ErrUnknownProtocol ∧
    NewInsecureCon "ftp" "h" "k" = Except.error ErrUnknownProtocol :=
  constructors_validate_scheme.1 "ftp" "h" "k" (by decide) (by decide)

/-- C8 counterexample: `buildURL` does not strip a trailing slash from a
segment — on segment `a/` the joined URL keeps a double slash, so the
claim that each segment is stripped of slashes before joining with single
slashes fails. -/
theorem buildURL_full_trim_counterexample :
    MispCon.buildURL ⟨"http", "h", "k", ⟨false⟩⟩ ["a/", "b"] = "http://h/a//b" ∧
    ("http://h/a//b" : String) ≠ "http://h/a/b" := by
  refine ⟨rfl, by decide⟩

/-- C8 (amended): `buildURL` joins scheme, host and the path segments
stripped of their LEADING slashes only (`strings.TrimLeft(p, "/")`;
trailing slashes are preserved) with single slashes into
`scheme://host/seg1/...`. -/
theorem buildURL_joins_leading_slash_trimmed_segments :
    ∀ (mc : MispCon) (path : List String),
      mc.buildURL path =
        mc.Proto ++ "://" ++ mc.Host ++ "/" ++
          String.intercalate "/"
            (path.map (fun s => String.mk (s.toList.dropWhile (fun c => c == '/')))) := by
  intro mc path
  have hfun : (fun c : Char => decide (c = '/')) = (fun c : Char => c == '/') := by
    funext c
    by_cases h : c = '/' <;> simp [h]
  simp [MispCon.buildURL, stringsTrimLeft, hfun]

/-- C5: on a 200 response whose body fails `json.Unmarshal` into the
variant-matched response structure, `Search` returns the (possibly only
partially populated) response value of the matched variant — not the
Empty response — together with the decode error. -/
theorem search_200_decode_failure_keeps_variant :
    (∀ (mc : MispCon) (q : MispAttributeQuery) (t : HttpRequest → HttpResult)
       (s : String) (mar : MispAttributeResponse) (e : GoError),
       (∀ r, t r = HttpResult.response 200 s) →
       unmarshalMispAttributeResponse s = (mar, some e) →
       (mc.Search (MispQueryVal.attributeQuery q) t).1 =
         (MispResponseVal.attributes mar, some e) ∧
       MispResponseVal.attributes mar ≠ MispResponseVal.empty) ∧
    (∀ (mc : MispCon) (q : MispEventQuery) (t : HttpRequest → HttpResult)
       (s : String) (mer : MispEventResponse) (e : GoError),
       (∀ r, t r = HttpResult.response 200 s) →
       unmarshalMispEventResponse s = (mer, some e) →
       (mc.Search (MispQueryVal.eventQuery q) t).1 =
         (MispResponseVal.events mer, some e) ∧
       MispResponseVal.events mer ≠ MispResponseVal.empty) := by
  constructor
  · intro mc q t s mar e ht hu
    refine ⟨?_, by simp⟩
    simp [MispCon.Search, MispCon.postSearch, ht, hu]
  · intro mc q t s mer e ht hu
    refine ⟨?_, by simp⟩
    simp [MispCon.Search, MispCon.postSearch, ht, hu]

/-- Witness for C5: a 200 body whose `value` member is a number; the `id`
member before it is decoded (partial population), the decode error is
returned, and the response is the attribute variant. -/
theorem search_200_decode_failure_keeps_variant_witness :
    (MispCon.Search ⟨"http", "h", "k", ⟨false⟩⟩
        (MispQueryVal.attributeQuery zeroMispAttributeQuery)
        (fun _ => HttpResult.response 200
          "\x7b\"response\":\x7b\"Attribute\":[\x7b\"id\":\"1\",\"value\":2\x7d]\x7d\x7d")).1 =
      (MispResponseVal.attributes ⟨⟨[{ zeroMispAttribute with ID := "1" }]⟩⟩,
        some (GoError.jsonErr "cannot unmarshal JSON value into field of type string")) ∧
    MispResponseVal.attributes ⟨⟨[{ zeroMispAttribute with ID := "1" }]⟩⟩ ≠
      MispResponseVal.empty :=
  (search_200_decode_failure_keeps_variant.1 ⟨"http", "h", "k", ⟨false⟩⟩
    zeroMispAttributeQuery
    (fun _ => HttpResult.response 200
      "\x7b\"response\":\x7b\"Attribute\":[\x7b\"id\":\"1\",\"value\":2\x7d]\x7d\x7d")
    "\x7b\"response\":\x7b\"Attribute\":[\x7b\"id\":\"1\",\"value\":2\x7d]\x7d\x7d"
    ⟨⟨[{ zeroMispAttribute with ID := "1" }]⟩⟩
    (GoError.jsonErr "cannot unmarshal JSON value into field of type string")
    (fun _ => rfl) rfl)

/-- C6: the timestamp accessors of `MispEvent` (both `Timestamp` and
`PublishedTimestamp`), `MispAttribute` and `MispRelatedEvent` parse the
stored raw string as a base-10 signed 64-bit integer of whole seconds
since the Unix epoch and return the corresponding instant; on raw value
`1610000000` the instant read in UTC is 2021-01-07T06:13:20Z; on an empty
or non-numeric raw value the call aborts (the `panic` branch, modelled as
`error`) instead of returning a value. -/
theorem timestamp_parses_unix_seconds :
    (∀ (me : MispEvent) (n : Int), parseIntGo me.StrTimestamp = Except.ok n →
      me.Timestamp = Except.ok (timeUnix n)) ∧
    (∀ (me : MispEvent) (e : GoError), parseIntGo me.StrTimestamp = Except.error e →
      me.Timestamp = Except.error e) ∧
    (∀ (me : MispEvent) (n : Int), parseIntGo me.StrPublishedTimestamp = Except.ok n →
      me.PublishedTimestamp = Except.ok (timeUnix n)) ∧
    (∀ (me : MispEvent) (e : GoError), parseIntGo me.StrPublishedTimestamp = Except.error e →
      me.PublishedTimestamp = Except.error e) ∧
    (∀ (ma : MispAttribute) (n : Int), parseIntGo ma.StrTimestamp = Except.ok n →
      ma.Timestamp = Except.ok (timeUnix n)) ∧
    (∀ (ma : MispAttribute) (e : GoError), parseIntGo ma.StrTimestamp = Except.error e →
      ma.Timestamp = Except.error e) ∧
    (∀ (mre : MispRelatedEvent) (n : Int), parseIntGo mre.StrTimestamp = Except.ok n →
      mre.Timestamp = Except.ok (timeUnix n)) ∧
    (∀ (mre : MispRelatedEvent) (e : GoError), parseIntGo mre.StrTimestamp = Except.error e →
      mre.Timestamp = Except.error e) ∧
    parseIntGo "1610000000" = Except.ok 1610000000 ∧
    utcOfUnix (timeUnix 1610000000) = ⟨2021, 1, 7, 6, 13, 20⟩ ∧
    (∃ e, ({ zeroMispEvent with StrTimestamp := "" } : MispEvent).Timestamp =
      Except.error e) ∧
    (∃ e, ({ zeroMispAttribute with StrTimestamp := "abc" } : MispAttribute).Timestamp =
      Except.error e) := by
  refine ⟨?_, ?_, ?_, ?_, ?_, ?_, ?_, ?_, rfl, by decide, ⟨_, rfl⟩, ⟨_, rfl⟩⟩
  · intro me n h; simp [MispEvent.Timestamp, h]
  · intro me e h; simp [MispEvent.Timestamp, h]
  · intro me n h; simp [MispEvent.PublishedTimestamp, h]
  · intro me e h; simp [MispEvent.PublishedTimestamp, h]
  · intro ma n h; simp [MispAttribute.Timestamp, h]
  · intro ma e h; simp [MispAttribute.Timestamp, h]
  · intro mre n h; simp [MispRelatedEvent.Timestamp, h]
  · intro mre e h; simp [MispRelatedEvent.Timestamp, h]

/-- Witness for C6: an event whose raw timestamp is `1610000000`. -/
theorem timestamp_parses_unix_seconds_witness :
    ({ zeroMispEvent with StrTimestamp := "1610000000" } : MispEvent).Timestamp =
      Except.ok (timeUnix 1610000000) :=
  timestamp_parses_unix_seconds.1 _ 1610000000 rfl

/-- The accumulator of `textExportLoop` only prefixes the recursive
deduplication. -/
theorem textExportLoop_eq_append :
    ∀ (ls marked out : List String),
      textExportLoop marked out ls = out ++ dedupFirstGo marked ls := by
  intro ls
  induction ls with
  | nil => intro marked out; simp [textExportLoop, dedupFirstGo]
  | cons x xs ih =>
    intro marked out
    by_cases h : x ∈ marked
    · simp [textExportLoop, dedupFirstGo, h, ih]
    · simp [textExportLoop, dedupFirstGo, h, ih]

/-- Membership in the deduplicated list: exactly the elements of the
input that are not already marked. -/
theorem mem_dedupFirstGo :
    ∀ (ls marked : List String) (y : String),
      y ∈ dedupFirstGo marked ls ↔ (y ∈ ls ∧ y ∉ marked) := by
  intro ls
  induction ls with
  | nil => intro marked y; simp [dedupFirstGo]
  | cons x xs ih =>
    intro marked y
    by_cases h : x ∈ marked
    · rw [dedupFirstGo, if_pos h, ih]
      constructor
      · rintro ⟨hy, hn⟩
        exact ⟨List.mem_cons_of_mem x hy, fun hm => hn (List.mem_cons_of_mem x hm)⟩
      · rintro ⟨hxy, hm⟩
        rcases List.mem_cons.mp hxy with rfl | hy
        · exact absurd h hm
        · exact ⟨hy, fun hc => (List.mem_cons.mp hc).elim (fun he => hm (he ▸ h)) hm⟩
    · rw [dedupFirstGo, if_neg h]
      constructor
      · intro hin
        rcases List.mem_cons.mp hin with rfl | hin2
        · exact ⟨List.mem_cons_self _ _, h⟩
        · obtain ⟨hy, hn⟩ := (ih (x :: marked) y).mp hin2
          exact ⟨List.mem_cons_of_mem x hy, fun hm => hn (List.mem_cons_of_mem x hm)⟩
      · rintro ⟨hxy, hm⟩
        rcases List.mem_cons.mp hxy with rfl | hy
        · exact List.mem_cons_self _ _
        · by_cases hxeq : y = x
          · exact hxeq ▸ List.mem_cons_self _ _
          · exact List.mem_cons_of_mem x
              ((ih (x :: marked) y).mpr
                ⟨hy, fun hc => (List.mem_cons.mp hc).elim hxeq hm⟩)

/-- Transport of a pairwise relation along a pointwise implication that
may use membership. -/
theorem pairwiseImpMem {α : Type} {R S : α → α → Prop} :
    ∀ {l : List α}, (∀ a ∈ l, ∀ b ∈ l, R a b → S a b) → l.Pairwise R → l.Pairwise S := by
  intro l
  induction l with
  | nil => intro _ _; exact List.Pairwise.nil
  | cons x xs ih =>
    intro h hp
    rw [List.pairwise_cons] at hp ⊢
    refine ⟨fun b hb => h x (by simp) b (by simp [hb]) (hp.1 b hb), ih ?_ hp.2⟩
    intro a ha b hb hr
    exact h a (by simp [ha]) b (by simp [hb]) hr

/-- The deduplicated list is strictly sorted by position of first
occurrence in the input. -/
theorem pairwise_dedupFirstGo :
    ∀ (ls marked : List String),
      (dedupFirstGo marked ls).Pairwise (fun a b => ls.indexOf a < ls.indexOf b) := by
  intro ls
  induction ls with
  | nil => intro marked; simp [dedupFirstGo]
  | cons x xs ih =>
    intro marked
    have hlift : ∀ m : List String,
        (dedupFirstGo (x :: m) xs).Pairwise
          (fun a b => (x :: xs).indexOf a < (x :: xs).indexOf b) := by
      intro m
      refine pairwiseImpMem ?_ (ih (x :: m))
      intro a ha b hb hr
      have hax : a ≠ x := by
        have := (mem_dedupFirstGo xs (x :: m) a).mp ha
        exact fun he => this.2 (List.mem_cons.mpr (Or.inl he))
      have hbx : b ≠ x := by
        have := (mem_dedupFirstGo xs (x :: m) b).mp hb
        exact fun he => this.2 (List.mem_cons.mpr (Or.inl he))
      rw [List.indexOf_cons_ne xs (fun he => hax he.symm),
        List.indexOf_cons_ne xs (fun he => hbx he.symm)]
      exact Nat.succ_lt_succ hr
    by_cases h : x ∈ marked
    · rw [dedupFirstGo, if_pos h]
      exact hlift marked
    · rw [dedupFirstGo, if_neg h]
      rw [List.pairwise_cons]
      refine ⟨?_, hlift marked⟩
      intro y hy
      have hyx : y ≠ x := by
        have := (mem_dedupFirstGo xs (x :: marked) y).mp hy
        exact fun he => this.2 (List.mem_cons.mpr (Or.inl he))
      rw [List.indexOf_cons_self, List.indexOf_cons_ne xs (fun he => hyx he.symm)]
      exact Nat.succ_pos _

/-- C9: `TextExport` on a 200 body returns the deduplicated body lines:
each distinct line appears exactly once (no-duplicates), membership is
exactly membership among the body's lines, and the output order is the
order of first occurrence in the body (output strictly sorted by
`indexOf`, the position of first occurrence); in particular body
`a\nb\na\nc\n` yields `[a, b, c]`. -/
theorem textexport_dedup_first_seen :
    (∀ (mc : MispCon) (flags : List String) (t : HttpRequest → HttpResult) (body : String),
      (∀ r, t r = HttpResult.response 200 body) →
      (mc.TextExport flags t).1 = (textExportLoop [] [] (readlines body), none)) ∧
    (∀ (ls : List String) (s : String),
      s ∈ textExportLoop [] [] ls ↔ s ∈ ls) ∧
    (∀ ls : List String,
      (textExportLoop [] [] ls).Pairwise (fun x y => ls.indexOf x < ls.indexOf y)) ∧
    (∀ ls : List String, (textExportLoop [] [] ls).Nodup) ∧
    (MispCon.TextExport ⟨"http", "h", "k", ⟨false⟩⟩ []
      (fun _ => HttpResult.response 200 "a\nb\na\nc\n")).1 = (["a", "b", "c"], none) := by
  have hbase : ∀ ls : List String, textExportLoop [] [] ls = dedupFirstGo [] ls := by
    intro ls
    simpa using textExportLoop_eq_append ls [] []
  have hpair : ∀ ls : List String,
      (textExportLoop [] [] ls).Pairwise (fun x y => ls.indexOf x < ls.indexOf y) := by
    intro ls
    rw [hbase]
    exact pairwise_dedupFirstGo ls []
  refine ⟨?_, ?_, hpair, ?_, rfl⟩
  · intro mc flags t body ht
    simp [MispCon.TextExport, ht]
  · intro ls s
    rw [hbase]
    simp [mem_dedupFirstGo]
  · intro ls
    refine List.Pairwise.imp ?_ (hpair ls)
    intro a b hr he
    rw [he] at hr
    exact Nat.lt_irrefl _ hr

/-- Witness for C9: the body `a\nb\na\nc\n` through `TextExport`. -/
theorem textexport_dedup_first_seen_witness :
    (MispCon.TextExport ⟨"http", "h", "k", ⟨false⟩⟩ []
        (fun _ => HttpResult.response 200 "a\nb\na\nc\n")).1 =
      (textExportLoop [] [] (readlines "a\nb\na\nc\n"), none) :=
  textexport_dedup_first_seen.1 ⟨"http", "h", "k", ⟨false⟩⟩ []
    (fun _ => HttpResult.response 200 "a\nb\na\nc\n") "a\nb\na\nc\n" (fun _ => rfl)

/-- C1: on a 200 response whose body is well-formed JSON of the shape
expected for the query's variant (an object whose `response` member holds
the collection) and which decodes without error, `Search` returns a nil
error and the response value of the matching variant, and iterating that
response yields exactly the domain objects decoded from the body's
collection, in the order they appear in the body (array order for events,
array order within the `Attribute` collection for attributes). -/
theorem search_200_wellformed_yields_body_objects :
    (∀ (mc : MispCon) (q : MispEventQuery) (t : HttpRequest → HttpResult)
       (s : String) (items : List Json) (mer : MispEventResponse),
       (∀ r, t r = HttpResult.response 200 s) →
       parseJson s = Except.ok (Json.obj [("response", Json.arr items)]) →
       unmarshalMispEventResponse s = (mer, none) →
       (mc.Search (MispQueryVal.eventQuery q) t).1 = (MispResponseVal.events mer, none) ∧
       (MispResponseVal.events mer).Iter =
         items.map (fun it =>
           MispObject.event (decodeMispEventDict zeroMispEventDict it).1.Event)) ∧
    (∀ (mc : MispCon) (q : MispAttributeQuery) (t : HttpRequest → HttpResult)
       (s : String) (items : List Json) (mar : MispAttributeResponse),
       (∀ r, t r = HttpResult.response 200 s) →
       parseJson s =
         Except.ok (Json.obj [("response", Json.obj [("Attribute", Json.arr items)])]) →
       unmarshalMispAttributeResponse s = (mar, none) →
       (mc.Search (MispQueryVal.attributeQuery q) t).1 =
         (MispResponseVal.attributes mar, none) ∧
       (MispResponseVal.attributes mar).Iter =
         items.map (fun it =>
           MispObject.attribute (decodeMispAttribute zeroMispAttribute it).1)) := by
  constructor
  · intro mc q t s items mer ht hparse hunm
    have hun2 : unmarshalMispEventResponse s =
        decodeMispEventResponse zeroMispEventResponse
          (Json.obj [("response", Json.arr items)]) := by
      unfold unmarshalMispEventResponse
      rw [hparse]
    have hmer : mer = ⟨items.map (fun it => (decodeMispEventDict zeroMispEventDict it).1)⟩ := by
      have h1 : (unmarshalMispEventResponse s).1 = mer := by rw [hunm]
      rw [hun2] at h1
      exact h1.symm.trans rfl
    constructor
    · simp [MispCon.Search, MispCon.postSearch, ht, hunm]
    · subst hmer
      simp [MispResponseVal.Iter, MispEventResponse.Iter, List.map_map]
  · intro mc q t s items mar ht hparse hunm
    have hun2 : unmarshalMispAttributeResponse s =
        decodeMispAttributeResponse zeroMispAttributeResponse
          (Json.obj [("response", Json.obj [("Attribute", Json.arr items)])]) := by
      unfold unmarshalMispAttributeResponse
      rw [hparse]
    have hmar : mar =
        ⟨⟨items.map (fun it => (decodeMispAttribute zeroMispAttribute it).1)⟩⟩ := by
      have h1 : (unmarshalMispAttributeResponse s).1 = mar := by rw [hunm]
      rw [hun2] at h1
      exact h1.symm.trans rfl
    constructor
    · simp [MispCon.Search, MispCon.postSearch, ht, hunm]
    · subst hmar
      simp [MispResponseVal.Iter, MispAttributeResponse.Iter, List.map_map]

/-- Witness for C1: a 200 event body holding one event with id 7. -/
theorem search_200_wellformed_yields_body_objects_witness :
    (MispCon.Search ⟨"http", "h", "k", ⟨false⟩⟩
        (MispQueryVal.eventQuery zeroMispEventQuery)
        (fun _ => HttpResult.response 200
          "\x7b\"response\":[\x7b\"Event\":\x7b\"id\":\"7\"\x7d\x7d]\x7d")).1 =
      (MispResponseVal.events ⟨[⟨{ zeroMispEvent with ID := "7" }⟩]⟩, none) ∧
    (MispResponseVal.events ⟨[⟨{ zeroMispEvent with ID := "7" }⟩]⟩).Iter =
      [MispObject.event { zeroMispEvent with ID := "7" }] := by
  have h := (search_200_wellformed_yields_body_objects.1 ⟨"http", "h", "k", ⟨false⟩⟩
    zeroMispEventQuery
    (fun _ => HttpResult.response 200
      "\x7b\"response\":[\x7b\"Event\":\x7b\"id\":\"7\"\x7d\x7d]\x7d")
    "\x7b\"response\":[\x7b\"Event\":\x7b\"id\":\"7\"\x7d\x7d]\x7d"
    [Json.obj [("Event", Json.obj [("id", Json.str "7")])]]
    ⟨[⟨{ zeroMispEvent with ID := "7" }⟩]⟩
    (fun _ => rfl) rfl rfl)
  exact ⟨h.1, h.2.trans rfl⟩

/-- An entry contributed by a string field is its tag with the field's
non-empty value. -/
theorem mem_stringFieldJson (tag v : String) (kv : String × Json) :
    kv ∈ stringFieldJson tag v → kv.2 = Json.str v ∧ v ≠ "" := by
  unfold stringFieldJson
  split_ifs with h
  · simp
  · intro hm
    rw [List.mem_singleton] at hm
    exact ⟨by rw [hm], h⟩

/-- An entry contributed by an integer field is its tag with the field's
non-zero value. -/
theorem mem_int8FieldJson (tag : String) (v : Int) (kv : String × Json) :
    kv ∈ int8FieldJson tag v → kv.2 = Json.num (toString v) ∧ v ≠ 0 := by
  unfold int8FieldJson
  split_ifs with h
  · simp
  · intro hm
    rw [List.mem_singleton] at hm
    exact ⟨by rw [hm], h⟩

/-- Key membership for a string field's contribution. -/
theorem mem_keys_stringFieldJson (tag k v : String) :
    k ∈ (stringFieldJson tag v).map Prod.fst ↔ (k = tag ∧ v ≠ "") := by
  unfold stringFieldJson
  split_ifs with h <;> simp [h]

/-- Key membership for an integer field's contribution. -/
theorem mem_keys_int8FieldJson (tag k : String) (v : Int) :
    k ∈ (int8FieldJson tag v).map Prod.fst ↔ (k = tag ∧ v ≠ 0) := by
  unfold int8FieldJson
  split_ifs with h <;> simp [h]

/-- C3: `Prepare()` omits every field left at its default value from the
serialized envelope — the emitted members never carry an empty-string or
null value, and a member's key is present exactly when the corresponding
field differs from its zero value — and, in particular, encoding an
`EventQuery` with only `Last := "1d"` set produces exactly
`\x7b"request":\x7b"last":"1d"\x7d\x7d`, whose decoding reproduces one
single key `last` valued `1d` inside the single top-level `request`
key. -/
theorem prepare_omits_default_fields :
    (∀ (q : MispEventQuery) (kv : String × Json), kv ∈ eventQueryFieldsGo q →
      kv.2 ≠ Json.str "" ∧ kv.2 ≠ Json.null) ∧
    (∀ (q : MispAttributeQuery) (kv : String × Json), kv ∈ attributeQueryFieldsGo q →
      kv.2 ≠ Json.str "" ∧ kv.2 ≠ Json.null) ∧
    (∀ (q : MispEventQuery) (tag : String),
      tag ∈ (eventQueryFieldsGo q).map Prod.fst ↔
        ((tag = "value" ∧ q.Value ≠ "") ∨ (tag = "type" ∧ q.«Type» ≠ "") ∨
         (tag = "category" ∧ q.Category ≠ "") ∨ (tag = "org" ∧ q.Org ≠ "") ∨
         (tag = "tags" ∧ q.Tags ≠ "") ∨ (tag = "quickfilter" ∧ q.QuickFilter ≠ "") ∨
         (tag = "from" ∧ q.From ≠ "") ∨ (tag = "to" ∧ q.To ≠ "") ∨
         (tag = "last" ∧ q.Last ≠ "") ∨ (tag = "eventid" ∧ q.EventID ≠ "") ∨
         (tag = "withAttachments" ∧ q.WithAttachments ≠ "") ∨
         (tag = "metadata" ∧ q.Metadata ≠ "") ∨ (tag = "searchall" ∧ q.SearchAll ≠ 0))) ∧
    (∀ (q : MispAttributeQuery) (tag : String),
      tag ∈ (attributeQueryFieldsGo q).map Prod.fst ↔
        ((tag = "value" ∧ q.Value ≠ "") ∨ (tag = "type" ∧ q.«Type» ≠ "") ∨
         (tag = "category" ∧ q.Category ≠ "") ∨ (tag = "org" ∧ q.Org ≠ "") ∨
         (tag = "tags" ∧ q.Tags ≠ "") ∨ (tag = "from" ∧ q.From ≠ "") ∨
         (tag = "to" ∧ q.To ≠ "") ∨ (tag = "last" ∧ q.Last ≠ "") ∨
         (tag = "eventid" ∧ q.EventID ≠ "") ∨ (tag = "uuid" ∧ q.UUID ≠ ""))) ∧
    MispEventQuery.Prepare { zeroMispEventQuery with Last := "1d" } =
      "\x7b\"request\":\x7b\"last\":\"1d\"\x7d\x7d" ∧
    parseJson (MispEventQuery.Prepare { zeroMispEventQuery with Last := "1d" }) =
      Except.ok (Json.obj [("request", Json.obj [("last", Json.str "1d")])]) := by
  refine ⟨?_, ?_, ?_, ?_, rfl, rfl⟩
  · intro q kv h
    unfold eventQueryFieldsGo at h
    simp only [List.mem_append] at h
    rcases h with (((((((((((h | h) | h) | h) | h) | h) | h) | h) | h) | h) | h) | h) | h
    all_goals first
      | (obtain ⟨he, hne⟩ := mem_stringFieldJson _ _ _ h
         rw [he]
         exact ⟨by simpa using hne, by simp⟩)
      | (obtain ⟨he, _⟩ := mem_int8FieldJson _ _ _ h
         rw [he]
         exact ⟨by simp, by simp⟩)
  · intro q kv h
    unfold attributeQueryFieldsGo at h
    simp only [List.mem_append] at h
    rcases h with ((((((((h | h) | h) | h) | h) | h) | h) | h) | h) | h
    all_goals
      obtain ⟨he, hne⟩ := mem_stringFieldJson _ _ _ h
      rw [he]
      exact ⟨by simpa using hne, by simp⟩
  · intro q tag
    simp only [eventQueryFieldsGo, List.map_append, List.mem_append,
      mem_keys_stringFieldJson, mem_keys_int8FieldJson, or_assoc]
  · intro q tag
    simp only [attributeQueryFieldsGo, List.map_append, List.mem_append,
      mem_keys_stringFieldJson, or_assoc]

/-- Witness for C3: the `last` entry of the round-trip query. -/
theorem prepare_omits_default_fields_witness :
    Json.str "1d" ≠ Json.str "" ∧ Json.str "1d" ≠ Json.null :=
  prepare_omits_default_fields.1 { zeroMispEventQuery with Last := "1d" }
    ("last", Json.str "1d") (List.mem_singleton.mpr rfl)

end GolangMisp
